import Mathlib

/-!
Verification of the FinSync extraction-and-settlement pipeline (`src/app.py`).

The development shallowly embeds the pieces of the program that the claims
are about:

* `pyStrip`, `delPat` — Python `str.strip()` and `str.replace(pat, "")`
  (left-to-right, non-overlapping, global substring deletion), used by the
  response-cleaning line `raw_text.strip().replace("```json", "").replace("```", "")`.
* `Json`, `parseValueF`, `loadsL` — the subset of CPython `json.loads`
  semantics the program relies on: recursive-descent parsing of values,
  arrays, objects, strings (with escapes), numbers (the CPython NUMBER_RE
  grammar), the `NaN`/`Infinity`/`-Infinity` constants, whitespace
  handling, and the `json.JSONDecodeError` message format
  `"<msg>: line L column C (char P)"`.  Numbers are modelled as exact
  rationals (the source uses IEEE doubles; all concrete inputs used in
  theorems below are exactly representable, so no rounding divergence is
  exercised).  Python `dict`s are modelled as key/value lists in parse
  order.
* `parse_model_output`, `analyze_with_ai` — the body of `analyze_with_ai`
  in the source, with the external `model.generate_content` boundary
  abstracted: the argument `raw` plays the role of `response.text`, and
  the `try/except` is modelled by the `Except`-valued parser (any parse
  exception `e` becomes the failure value `(none, str e)`).
* `Row`, `total_spend`, `shared_spend`, `private_spend`, `you_pay`,
  `partner_pay`, `settlement_msg` — the dashboard aggregation
  (lines 153–155), the settlement computation (lines 197–199) and the
  outbound report string (line 209), over rationals.
* `process_upload` — the length-50 guard of the processing block
  (lines 131–135), with a flag recording whether `analyze_with_ai`
  was invoked.
-/

abbrev Chars := List Char

/-- Whitespace skipped by the CPython json scanner (`[ \t\n\r]`). -/
def jsonWs (c : Char) : Bool :=
  c = ' ' || c = '\t' || c = '\n' || c = '\r'

/-- ASCII whitespace stripped by Python `str.strip()` (restricted to the
ASCII range; the program never feeds it other Unicode whitespace). -/
def pyWs (c : Char) : Bool :=
  c = ' ' || c = '\t' || c = '\n' || c = '\r' || c = Char.ofNat 11 || c = Char.ofNat 12

/-- Leading-whitespace removal, as in Python `str.lstrip()`. -/
def pyStripL (l : Chars) : Chars := List.dropWhile pyWs l

/-- Trailing-whitespace removal, as in Python `str.rstrip()`. -/
def pyStripR (l : Chars) : Chars := (List.dropWhile pyWs l.reverse).reverse

/-- Python `str.strip()`. -/
def pyStrip (l : Chars) : Chars := pyStripR (pyStripL l)

/-- Fuelled worker for `delPat`.  One unit of fuel is spent per character
position examined, so fuel `l.length` always suffices. -/
def delPatAux (pat : Chars) : Nat → Chars → Chars
  | _, [] => []
  | 0, l => l
  | f + 1, c :: cs =>
    if List.isPrefixOf pat (c :: cs) then delPatAux pat f (List.drop (pat.length - 1) cs)
    else c :: delPatAux pat f cs

/-- Python `s.replace(pat, "")` for a non-empty `pat`: delete every
left-to-right non-overlapping occurrence of `pat`, without rescanning the
result (deletions that juxtapose new occurrences leave them intact, as in
CPython). -/
def delPat (pat l : Chars) : Chars := delPatAux pat l.length l

/-- Long fence marker `"```json"`. -/
def fence7 : Chars := "```json".data

/-- Short fence marker `"```"`. -/
def fence3 : Chars := "```".data

/-- Cleaning step of `analyze_with_ai` (line 102 of `src/app.py`):
`raw_text.strip().replace("```json", "").replace("```", "")`. -/
def clean_json (raw : Chars) : Chars :=
  delPat fence3 (delPat fence7 (pyStrip raw))

/-- Values produced by `json.loads`.  `num` carries an exact rational;
`obj` keeps the key/value pairs in parse order. -/
inductive Json where
  | null : Json
  | bool (b : Bool) : Json
  | num (q : ℚ) : Json
  | str (s : Chars) : Json
  | arr (xs : List Json) : Json
  | obj (kvs : List (Chars × Json)) : Json
  | nan : Json
  | inf : Json
  | ninf : Json

/-- Failure kinds of the CPython json decoder that the embedding can
produce, mirroring the `JSONDecodeError` messages. -/
inductive ErrKind where
  | expValue | expPropName | expColon | expComma | extraData
  | untermStr | invalidCtrl | invalidEsc | invalidUEsc | noFuel

/-- Parse error: the kind together with the remaining input at the
reported position (from which the char/line/column are recovered). -/
structure PErr where
  kind : ErrKind
  rem : Chars

/-- Skip json whitespace. -/
def skipWs (l : Chars) : Chars := List.dropWhile jsonWs l

/-- Match a literal token, returning the rest of the input. -/
def parseLit (lit cs : Chars) : Option Chars :=
  if List.isPrefixOf lit cs then some (List.drop lit.length cs) else none

/-- Value of a hex digit, if any. -/
def hexVal (c : Char) : Option Nat :=
  if 48 ≤ c.toNat ∧ c.toNat ≤ 57 then some (c.toNat - 48)
  else if 97 ≤ c.toNat ∧ c.toNat ≤ 102 then some (c.toNat - 87)
  else if 65 ≤ c.toNat ∧ c.toNat ≤ 70 then some (c.toNat - 55)
  else none

/-- Decimal value of a digit string. -/
def digitsToNat (ds : Chars) : Nat := ds.foldl (fun a c => a * 10 + (c.toNat - 48)) 0

/-- Scan the body of a json string (after the opening quote), as CPython
`py_scanstring` in strict mode: raw control characters are rejected, the
standard escapes and `\uXXXX` (with surrogate-pair combination) are
decoded. -/
def scanStrAux : Nat → Chars → Chars → Except (ErrKind × Chars) (Chars × Chars)
  | _, _, [] => .error (.untermStr, [])
  | 0, _, cs => .error (.noFuel, cs)
  | _ + 1, acc, '"' :: rest => .ok (acc.reverse, rest)
  | f + 1, acc, '\\' :: rest =>
    match rest with
    | [] => .error (.untermStr, [])
    | 'u' :: h1 :: h2 :: h3 :: h4 :: rest2 =>
      match hexVal h1, hexVal h2, hexVal h3, hexVal h4 with
      | some a, some b, some c, some d =>
        let n := ((a * 16 + b) * 16 + c) * 16 + d
        if 55296 ≤ n ∧ n ≤ 56319 then
          match rest2 with
          | '\\' :: 'u' :: g1 :: g2 :: g3 :: g4 :: rest3 =>
            match hexVal g1, hexVal g2, hexVal g3, hexVal g4 with
            | some a2, some b2, some c2, some d2 =>
              let m := ((a2 * 16 + b2) * 16 + c2) * 16 + d2
              if 56320 ≤ m ∧ m ≤ 57343 then
                scanStrAux f (Char.ofNat (65536 + (n - 55296) * 1024 + (m - 56320)) :: acc) rest3
              else scanStrAux f (Char.ofNat n :: acc) rest2
            | _, _, _, _ => scanStrAux f (Char.ofNat n :: acc) rest2
          | _ => scanStrAux f (Char.ofNat n :: acc) rest2
        else scanStrAux f (Char.ofNat n :: acc) rest2
      | _, _, _, _ => .error (.invalidUEsc, rest2)
    | 'u' :: rest2 => .error (.invalidUEsc, rest2)
    | '"' :: rest2 => scanStrAux f ('"' :: acc) rest2
    | '\\' :: rest2 => scanStrAux f ('\\' :: acc) rest2
    | '/' :: rest2 => scanStrAux f ('/' :: acc) rest2
    | 'b' :: rest2 => scanStrAux f (Char.ofNat 8 :: acc) rest2
    | 'f' :: rest2 => scanStrAux f (Char.ofNat 12 :: acc) rest2
    | 'n' :: rest2 => scanStrAux f ('\n' :: acc) rest2
    | 'r' :: rest2 => scanStrAux f ('\r' :: acc) rest2
    | 't' :: rest2 => scanStrAux f ('\t' :: acc) rest2
    | e :: rest2 => .error (.invalidEsc, e :: rest2)
  | f + 1, acc, c :: rest =>
    if c.toNat < 32 then .error (.invalidCtrl, c :: rest)
    else scanStrAux f (c :: acc) rest

/-- Number grammar of CPython json (`NUMBER_RE`): after the optional sign
and integer part, the fractional and exponent parts are optional and a
malformed tail is simply not consumed (regex backtracking). -/
def parseNumTail (neg : Bool) (ip : Nat) (r1 : Chars) : ℚ × Chars :=
  let fr := match r1 with
    | '.' :: rr =>
      let ds := rr.takeWhile Char.isDigit
      if ds.isEmpty then (([] : Chars), r1) else (ds, List.drop ds.length rr)
    | _ => (([] : Chars), r1)
  let fds := fr.1
  let r2 := fr.2
  let ex := match r2 with
    | 'e' :: rr =>
      let sr := match rr with
        | '+' :: r => (false, r)
        | '-' :: r => (true, r)
        | _ => (false, rr)
      let ds := sr.2.takeWhile Char.isDigit
      if ds.isEmpty then ((false, ([] : Chars)), r2)
      else ((sr.1, ds), List.drop ds.length sr.2)
    | 'E' :: rr =>
      let sr := match rr with
        | '+' :: r => (false, r)
        | '-' :: r => (true, r)
        | _ => (false, rr)
      let ds := sr.2.takeWhile Char.isDigit
      if ds.isEmpty then ((false, ([] : Chars)), r2)
      else ((sr.1, ds), List.drop ds.length sr.2)
    | _ => ((false, ([] : Chars)), r2)
  let esign := ex.1.1
  let eds := ex.1.2
  let r3 := ex.2
  let fl := fds.length
  let mant : Nat := ip * 10 ^ fl + digitsToNat fds
  let e : Nat := digitsToNat eds
  let q0 : ℚ := (mant : ℚ) / (10 : ℚ) ^ fl
  let q1 : ℚ := if esign then q0 / (10 : ℚ) ^ e else q0 * (10 : ℚ) ^ e
  (if neg then -q1 else q1, r3)

/-- Parse a json number at the head of the input, if the CPython number
regex matches there. -/
def parseNumber (cs : Chars) : Option (ℚ × Chars) :=
  let sg := match cs with
    | '-' :: r => (true, r)
    | _ => (false, cs)
  let neg := sg.1
  match sg.2 with
  | '0' :: r1 => some (parseNumTail neg 0 r1)
  | c :: r1 =>
    if c.isDigit then
      let ds := r1.takeWhile Char.isDigit
      some (parseNumTail neg (digitsToNat (c :: ds)) (List.drop ds.length r1))
    else none
  | [] => none

/-- Array elements after the first non-`]` character (whitespace already
skipped); `pv` parses one value.  One unit of fuel per element. -/
def parseElemsF (pv : Chars → Except PErr (Json × Chars)) :
    Nat → List Json → Chars → Except PErr (List Json × Chars)
  | 0, _, cs => .error ⟨.noFuel, cs⟩
  | n + 1, acc, cs =>
    match pv cs with
    | .error e => .error e
    | .ok (v, rest) =>
      match skipWs rest with
      | ']' :: r2 => .ok ((v :: acc).reverse, r2)
      | ',' :: r2 => parseElemsF pv n (v :: acc) (skipWs r2)
      | r => .error ⟨.expComma, r⟩

/-- Object members, starting at the opening quote of a key. -/
def parseMembersF (pv : Chars → Except PErr (Json × Chars)) :
    Nat → List (Chars × Json) → Chars → Except PErr (List (Chars × Json) × Chars)
  | 0, _, cs => .error ⟨.noFuel, cs⟩
  | n + 1, acc, cs =>
    match cs with
    | '"' :: cs1 =>
      match scanStrAux (cs1.length + 1) [] cs1 with
      | .error (.untermStr, _) => .error ⟨.untermStr, cs⟩
      | .error (k, rem) => .error ⟨k, rem⟩
      | .ok (key, r1) =>
        match skipWs r1 with
        | ':' :: r2 =>
          match pv (skipWs r2) with
          | .error e => .error e
          | .ok (v, r3) =>
            match skipWs r3 with
            | '}' :: r4 => .ok (((key, v) :: acc).reverse, r4)
            | ',' :: r4 =>
              match skipWs r4 with
              | '"' :: _ => parseMembersF pv n ((key, v) :: acc) (skipWs r4)
              | r5 => .error ⟨.expPropName, r5⟩
            | r4 => .error ⟨.expComma, r4⟩
        | r2 => .error ⟨.expColon, r2⟩
    | _ => .error ⟨.expPropName, cs⟩

/-- One json value at the head of the input (leading whitespace already
skipped by the caller), mirroring CPython `scan_once`: string, object,
array, the `null`/`true`/`false` constants, a number, then the
`NaN`/`Infinity`/`-Infinity` constants, otherwise "Expecting value".
Fuel bounds the nesting depth; `loadsL` supplies fuel exceeding the
input length, which each nesting level consumes at least one character
of, so `noFuel` is unreachable from `loadsL`. -/
def parseValueF : Nat → Chars → Except PErr (Json × Chars)
  | _, [] => .error ⟨.expValue, []⟩
  | 0, cs => .error ⟨.noFuel, cs⟩
  | fuel + 1, c :: cs =>
    if c = '"' then
      match scanStrAux (cs.length + 1) [] cs with
      | .error (.untermStr, _) => .error ⟨.untermStr, c :: cs⟩
      | .error (k, rem) => .error ⟨k, rem⟩
      | .ok (s, rest) => .ok (.str s, rest)
    else if c = '{' then
      match skipWs cs with
      | '}' :: r2 => .ok (.obj [], r2)
      | r =>
        match r with
        | '"' :: _ =>
          match parseMembersF (parseValueF fuel) (cs.length + 1) [] r with
          | .ok (kvs, rest) => .ok (.obj kvs, rest)
          | .error e => .error e
        | _ => .error ⟨.expPropName, r⟩
    else if c = '[' then
      match skipWs cs with
      | ']' :: r2 => .ok (.arr [], r2)
      | r =>
        match parseElemsF (parseValueF fuel) (cs.length + 1) [] r with
        | .ok (xs, rest) => .ok (.arr xs, rest)
        | .error e => .error e
    else
      match parseLit ("null".data) (c :: cs) with
      | some r => .ok (.null, r)
      | none =>
        match parseLit ("true".data) (c :: cs) with
        | some r => .ok (.bool true, r)
        | none =>
          match parseLit ("false".data) (c :: cs) with
          | some r => .ok (.bool false, r)
          | none =>
            match parseNumber (c :: cs) with
            | some (q, r) => .ok (.num q, r)
            | none =>
              match parseLit ("NaN".data) (c :: cs) with
              | some r => .ok (.nan, r)
              | none =>
                match parseLit ("Infinity".data) (c :: cs) with
                | some r => .ok (.inf, r)
                | none =>
                  match parseLit ("-Infinity".data) (c :: cs) with
                  | some r => .ok (.ninf, r)
                  | none => .error ⟨.expValue, c :: cs⟩

/-- Strip trailing json whitespace then leading json whitespace — the
whitespace that `json.loads` ignores around the document. -/
def jtrimL (x : Chars) : Chars :=
  (List.dropWhile jsonWs (List.dropWhile jsonWs x).reverse).reverse

/-- Message text of each decoder failure, as in CPython `json.decoder`. -/
def errText (k : ErrKind) : String :=
  match k with
  | .expValue => "Expecting value"
  | .expPropName => "Expecting property name enclosed in double quotes"
  | .expColon => "Expecting " ++ String.singleton (Char.ofNat 39) ++ ":" ++ String.singleton (Char.ofNat 39) ++ " delimiter"
  | .expComma => "Expecting " ++ String.singleton (Char.ofNat 39) ++ "," ++ String.singleton (Char.ofNat 39) ++ " delimiter"
  | .extraData => "Extra data"
  | .untermStr => "Unterminated string starting at"
  | .invalidCtrl => "Invalid control character at"
  | .invalidEsc => "Invalid " ++ String.singleton (Char.ofNat 92) ++ "escape"
  | .invalidUEsc => "Invalid " ++ String.singleton (Char.ofNat 92) ++ "uXXXX escape"
  | .noFuel => "maximum recursion depth exceeded"

/-- Render a `JSONDecodeError` as `str(e)` does:
`"<msg>: line L column C (char P)"`, with line and column computed from
the original document text. -/
def renderMsg (doc : Chars) (k : ErrKind) (pos : Nat) : String :=
  let pre := doc.take pos
  let line := 1 + pre.count '\n'
  let col := 1 + (pre.reverse.takeWhile (fun c => ¬ (c = '\n'))).length
  errText k ++ ": line " ++ Nat.repr line ++ " column " ++ Nat.repr col ++
    " (char " ++ Nat.repr pos ++ ")"

/-- Parse a whitespace-trimmed document: one value, with trailing
non-whitespace rejected as "Extra data". -/
def parseDoc (u : Chars) : Except PErr Json :=
  match parseValueF (u.length + 1) u with
  | .error e => .error e
  | .ok (v, rest) =>
    match skipWs rest with
    | [] => .ok v
    | r => .error ⟨.extraData, r⟩

/-- Render a parse failure of the whitespace-trimmed document `u` as the
`str(e)` of the corresponding `JSONDecodeError` over the original
document `x`. -/
def renderPErr (x u : Chars) (e : PErr) : String :=
  renderMsg x e.kind ((x.length - (List.dropWhile jsonWs x).length) + (u.length - e.rem.length))

/-- CPython `json.loads` on a character list: the surrounding whitespace
is immaterial (`raw_decode` skips it before and after the value), so the
value is parsed from the trimmed document; on failure the result is the
exception text `str(e)`, with positions in the original document. -/
def loadsL (x : Chars) : Except String Json :=
  match parseDoc (jtrimL x) with
  | .ok v => .ok v
  | .error e => .error (renderPErr x (jtrimL x) e)

/-- `json.loads` on a string. -/
def loads (s : String) : Except String Json := loadsL s.data

/-- Parsing part of `analyze_with_ai` (lines 100–107 of `src/app.py`): the
model response `raw` is cleaned and fed to `json.loads`; on success the
function returns `(data, raw)` with the raw response as the debug log, and
any parse exception `e` is caught and returned as `(None, str e)`. -/
def parse_model_output (raw : String) : Option Json × String :=
  match loadsL (clean_json raw.data) with
  | .ok v => (some v, raw)
  | .error e => (none, e)

/-- `analyze_with_ai` (lines 71–107): an empty credential short-circuits
to `(None, "Missing API Key")` before the model boundary; otherwise the
external `generate` call produced the response `raw`, which is parsed. -/
def analyze_with_ai (raw api_key : String) : Option Json × String :=
  if api_key.isEmpty then (none, "Missing API Key")
  else parse_model_output raw

/-- Python truthiness of a decoded json value, as used by `if data:` on
line 146. -/
def pythonTruthy : Json → Bool
  | .null => false
  | .bool b => b
  | .num q => q != 0
  | .str s => !s.isEmpty
  | .arr xs => !xs.isEmpty
  | .obj kvs => !kvs.isEmpty
  | .nan => true
  | .inf => true
  | .ninf => true

/-- Guard of the dashboard/settlement block (line 146, `if data:`): the
dashboard, table, chart and settlement sections run only when the first
component of the analysis result is truthy. -/
def dashboard_taken (data : Option Json) : Bool :=
  match data with
  | some v => pythonTruthy v
  | none => false

/-- Outcome of one document submission in the processing block
(lines 126–135). -/
inductive ProcessOutcome where
  | emptyDocError : ProcessOutcome
  | aiAnalyzed (result : Option Json × String) : ProcessOutcome

/-- Processing block (lines 128–135): extract text, and when its length
is below 50 show the empty-document error; only otherwise call
`analyze_with_ai`.  The boolean records whether `analyze_with_ai` was
invoked.  `modelResponse` stands for the text the external model boundary
would return if it were reached. -/
def process_upload (raw_text modelResponse api_key : String) :
    ProcessOutcome × Bool :=
  if raw_text.length < 50 then (.emptyDocError, false)
  else (.aiAnalyzed (analyze_with_ai modelResponse api_key), true)

/-- One row of the working DataFrame, restricted to the two columns the
aggregation reads: `amount` (a finite number, modelled exactly) and
`type`. -/
structure Row where
  amount : ℚ
  type : Chars

/-- Tag of shared rows. -/
def sharedTag : Chars := "Shared".data

/-- Line 153: `total_spend = df["amount"].sum()` (single-quoted in the source). -/
def total_spend (df : List Row) : ℚ := (df.map Row.amount).sum

/-- Lines 154 and 197: the sum of the amount column over rows whose type
column equals "Shared"
(also `final_shared` recomputed over the edited frame). -/
def shared_spend (df : List Row) : ℚ :=
  ((df.filter fun r => r.type = sharedTag).map Row.amount).sum

/-- Line 155: `private_spend = total_spend - shared_spend`. -/
def private_spend (df : List Row) : ℚ := total_spend df - shared_spend df

/-- Line 198: `you_pay = (split / 100) * final_shared`, with the slider
value `split : ℕ` (0–100) and Python true division. -/
def you_pay (split : ℕ) (df : List Row) : ℚ :=
  ((split : ℚ) / 100) * shared_spend df

/-- Line 199: `partner_pay = final_shared - you_pay`. -/
def partner_pay (split : ℕ) (df : List Row) : ℚ :=
  shared_spend df - you_pay split df

/-- Modelled from the spec (§4.5): `totalSpend = Σ amount` over all
records. -/
def totalSpend (records : List Row) : ℚ :=
  records.foldl (fun acc r => acc + r.amount) 0

/-- Modelled from the spec (§4.5): `sharedSpend = Σ amount` over records
with `kind = Shared`. -/
def sharedSpend (records : List Row) : ℚ :=
  records.foldl (fun acc r => if r.type = sharedTag then acc + r.amount else acc) 0

/-- Modelled from the spec (§4.5): `privateSpend = totalSpend − sharedSpend`. -/
def privateSpend (records : List Row) : ℚ := totalSpend records - sharedSpend records

/-- Modelled from the spec (§4.5): `partyAOwed = splitRatio × sharedSpend`. -/
def partyAOwed (ratioQ : ℚ) (records : List Row) : ℚ := ratioQ * sharedSpend records

/-- Modelled from the spec (§4.5): `partyBOwed = sharedSpend − partyAOwed`. -/
def partyBOwed (ratioQ : ℚ) (records : List Row) : ℚ :=
  sharedSpend records - partyAOwed ratioQ records

/-- Round a rational to the nearest integer, ties to even — the rounding
of Python format with spec ".2f" applied to `x * 100` (exact for the decimal
values exercised below; the source rounds the IEEE double). -/
def roundHalfEven (x : ℚ) : ℤ :=
  let f : ℤ := Rat.floor x
  let r : ℚ := x - (f : ℚ)
  if r < 1 / 2 then f
  else if 1 / 2 < r then f + 1
  else if f % 2 = 0 then f else f + 1

/-- Python `f"{q:.2f}"` on a finite value: two digits after the decimal
point. -/
def fmt2 (q : ℚ) : String :=
  let n : ℤ := roundHalfEven (q * 100)
  let sgn : String := if n < 0 then "-" else ""
  let a : ℕ := n.natAbs
  sgn ++ Nat.repr (a / 100) ++ "." ++
    (if a % 100 < 10 then "0" else "") ++ Nat.repr (a % 100)

/-- Line 209: the WhatsApp report string
`f"Hey! FinSync Report: Total Shared is ${final_shared:.2f}. Based on a
{split}/{100-split} split, please send ${partner_pay:.2f}."`. -/
def settlement_msg (df : List Row) (split : ℕ) : String :=
  "Hey! FinSync Report: Total Shared is $" ++ fmt2 (shared_spend df) ++
    ". Based on a " ++ Nat.repr split ++ "/" ++ Nat.repr (100 - split) ++
    " split, please send $" ++ fmt2 (partner_pay split df) ++ "."

/-- Substring test (anywhere in the haystack). -/
def containsSub (needle : Chars) : Chars → Bool
  | [] => needle.isEmpty
  | c :: cs => List.isPrefixOf needle (c :: cs) || containsSub needle cs

/-- First value bound to a key in a decoded object, if any. -/
def lookupKey (k : Chars) : List (Chars × Json) → Option Json
  | [] => none
  | (k2, v) :: kvs => if k2 = k then some v else lookupKey k kvs

/-- Description field of the first record of a decoded array, used to
compare parsed payloads. -/
def descOf (v : Json) : Option Chars :=
  match v with
  | .arr (.obj kvs :: _) =>
    match lookupKey ("description".data) kvs with
    | some (.str s) => some s
    | _ => none
  | _ => none

/-- A model response consisting of a fenced code block around a payload:
the canonical wrapping `"```json\n" + s + "\n```"` that the prompt
(line 87) forbids but models still emit. -/
def wrapFence (s : String) : String := "```json\n" ++ s ++ "\n```"

/-- Left brace character, used to build json test inputs. -/
def lbr : String := String.singleton (Char.ofNat 123)

/-- Right brace character, used to build json test inputs. -/
def rbr : String := String.singleton (Char.ofNat 125)

/-! ### Library lemmas about the cleaning pass -/

/-- Fuel irrelevance for `delPatAux`: any fuel at least the input length
computes the same result. -/
theorem delPatAux_fuel_irrel (pat : Chars) :
    ∀ f g X, X.length ≤ f → X.length ≤ g → delPatAux pat f X = delPatAux pat g X := by
  intro f
  induction f with
  | zero =>
    intro g X hf _
    have hX : X = [] := List.length_eq_zero.mp (Nat.le_zero.mp hf)
    subst hX
    cases g <;> rfl
  | succ f ih =>
    intro g X hf hg
    cases X with
    | nil => cases g <;> rfl
    | cons c cs =>
      cases g with
      | zero => simp at hg
      | succ g' =>
        simp only [delPatAux]
        by_cases h : List.isPrefixOf pat (c :: cs)
        · rw [if_pos h, if_pos h]
          have hd : (List.drop (pat.length - 1) cs).length ≤ cs.length := by
            rw [List.length_drop]; omega
          have hf' : cs.length ≤ f := by simpa using Nat.le_of_succ_le_succ hf
          have hg' : cs.length ≤ g' := by simpa using Nat.le_of_succ_le_succ hg
          exact ih g' _ (le_trans hd hf') (le_trans hd hg')
        · rw [if_neg h, if_neg h]
          have hf' : cs.length ≤ f := by simpa using Nat.le_of_succ_le_succ hf
          have hg' : cs.length ≤ g' := by simpa using Nat.le_of_succ_le_succ hg
          exact congrArg (c :: ·) (ih g' cs hf' hg')

/-- Unfolding equation of `delPat` at a matching position. -/
theorem delPat_pos (pat : Chars) (c : Char) (cs : Chars)
    (h : List.isPrefixOf pat (c :: cs) = true) :
    delPat pat (c :: cs) = delPat pat (List.drop (pat.length - 1) cs) := by
  show delPatAux pat (c :: cs).length (c :: cs) = _
  have h1 : (c :: cs).length = cs.length + 1 := rfl
  rw [h1]
  simp only [delPatAux, h, if_true]
  exact delPatAux_fuel_irrel pat cs.length _ _
    (by rw [List.length_drop]; omega) (le_refl _)

/-- Unfolding equation of `delPat` at a non-matching position. -/
theorem delPat_neg (pat : Chars) (c : Char) (cs : Chars)
    (h : List.isPrefixOf pat (c :: cs) = false) :
    delPat pat (c :: cs) = c :: delPat pat cs := by
  show delPatAux pat (c :: cs).length (c :: cs) = _
  have h1 : (c :: cs).length = cs.length + 1 := rfl
  rw [h1]
  simp only [delPatAux, h]
  rfl

/-- A list is a `isPrefixOf` itself followed by anything. -/
theorem isPrefixOf_self_append (l r : Chars) : List.isPrefixOf l (l ++ r) = true := by
  induction l with
  | nil => simp [List.isPrefixOf]
  | cons a as ih => simp [List.isPrefixOf, ih]

/-- Extending the haystack preserves `isPrefixOf`. -/
theorem isPrefixOf_append_ext (pat : Chars) :
    ∀ x z, List.isPrefixOf pat x = true → List.isPrefixOf pat (x ++ z) = true := by
  induction pat with
  | nil => intro x z _; simp [List.isPrefixOf]
  | cons p pt ih =>
    intro x z h
    cases x with
    | nil => simp [List.isPrefixOf] at h
    | cons d x' =>
      simp only [List.cons_append, List.isPrefixOf, Bool.and_eq_true] at h ⊢
      exact ⟨h.1, ih x' z h.2⟩

/-- A match that fits inside the left part of an append matches there. -/
theorem isPrefixOf_of_append_le (pat : Chars) :
    ∀ x z, List.isPrefixOf pat (x ++ z) = true → pat.length ≤ x.length →
      List.isPrefixOf pat x = true := by
  induction pat with
  | nil => intro x z _ _; simp [List.isPrefixOf]
  | cons p pt ih =>
    intro x z h hl
    cases x with
    | nil => simp at hl
    | cons d x' =>
      simp only [List.cons_append, List.isPrefixOf, Bool.and_eq_true] at h ⊢
      refine ⟨h.1, ih x' z h.2 ?_⟩
      simpa using Nat.le_of_succ_le_succ hl

/-- A pattern that avoids a separator character and matches across it
must fit inside the part before the separator. -/
theorem isPrefixOf_sep_len (sep : Char) (pat : Chars) (hs : sep ∉ pat) :
    ∀ x y, List.isPrefixOf pat (x ++ sep :: y) = true → pat.length ≤ x.length := by
  induction pat with
  | nil => intro x y _; simp
  | cons p pt ih =>
    intro x y h
    cases x with
    | nil =>
      simp only [List.nil_append, List.isPrefixOf, Bool.and_eq_true, beq_iff_eq] at h
      exact absurd (h.1 ▸ List.mem_cons_self p pt) hs
    | cons d x' =>
      simp only [List.cons_append, List.isPrefixOf, Bool.and_eq_true] at h
      have hs' : sep ∉ pt := fun hm => hs (List.mem_cons_of_mem p hm)
      have := ih hs' x' y h.2
      simpa using Nat.succ_le_succ this

/-- Global deletion distributes over a separator character that does not
occur in the pattern: no occurrence can span the separator, so the scan
decomposes. -/
theorem delPat_append_sep (pat : Chars) (hne : pat ≠ []) (hs : '\n' ∉ pat) :
    ∀ n a b, a.length ≤ n →
      delPat pat (a ++ '\n' :: b) = delPat pat a ++ '\n' :: delPat pat b := by
  intro n
  induction n with
  | zero =>
    intro a b ha
    have hA : a = [] := List.length_eq_zero.mp (Nat.le_zero.mp ha)
    subst hA
    obtain ⟨p, pt, rfl⟩ := List.exists_cons_of_ne_nil hne
    have hp : p ≠ '\n' := fun hp => hs (hp ▸ List.mem_cons_self p pt)
    have hpre : List.isPrefixOf (p :: pt) ('\n' :: b) = false := by
      simp only [List.isPrefixOf, Bool.and_eq_false_iff]
      left
      simpa using hp
    simp only [List.nil_append]
    rw [delPat_neg _ _ _ hpre]
    rfl
  | succ n ih =>
    intro a b ha
    cases a with
    | nil => exact ih [] b (by simp)
    | cons c a' =>
      have ha' : a'.length ≤ n := by simpa using Nat.le_of_succ_le_succ ha
      cases h : List.isPrefixOf pat (c :: (a' ++ '\n' :: b)) with
      | true =>
        have hlen : pat.length ≤ a'.length + 1 := by
          have := isPrefixOf_sep_len '\n' pat hs (c :: a') b (by simpa using h)
          simpa using this
        have hmatch : List.isPrefixOf pat (c :: a') = true := by
          have hx : List.isPrefixOf pat ((c :: a') ++ '\n' :: b) = true := by simpa using h
          exact isPrefixOf_of_append_le pat (c :: a') ('\n' :: b) hx (by simpa using hlen)
        have hdl : List.drop (pat.length - 1) (a' ++ '\n' :: b) =
            List.drop (pat.length - 1) a' ++ '\n' :: b :=
          List.drop_append_of_le_length (by omega)
        have hstep : delPat pat ((c :: a') ++ '\n' :: b) =
            delPat pat (List.drop (pat.length - 1) a' ++ '\n' :: b) := by
          rw [List.cons_append, delPat_pos pat c _ h, hdl]
        rw [hstep, ih _ b (by rw [List.length_drop]; omega),
          delPat_pos pat c a' hmatch]
      | false =>
        have hm' : List.isPrefixOf pat (c :: a') = false := by
          cases hx : List.isPrefixOf pat (c :: a') with
          | false => rfl
          | true =>
            have hext := isPrefixOf_append_ext pat (c :: a') ('\n' :: b) hx
            rw [List.cons_append] at hext
            rw [hext] at h
            cases h
        rw [List.cons_append, delPat_neg pat c _ h, ih a' b ha',
          delPat_neg pat c a' hm']
        rfl

/-- Deleting a pattern from a text that begins with it continues in the
tail. -/
theorem delPat_self_front (p : Char) (pt R : Chars) :
    delPat (p :: pt) ((p :: pt) ++ R) = delPat (p :: pt) R := by
  have h : List.isPrefixOf (p :: pt) (p :: (pt ++ R)) = true := by
    have hx := isPrefixOf_self_append (p :: pt) R
    rw [List.cons_append] at hx
    exact hx
  rw [List.cons_append, delPat_pos _ _ _ h]
  have : List.drop ((p :: pt).length - 1) (pt ++ R) = R := by
    simp [List.drop_append_of_le_length]
  rw [this]

/-- Deletion steps over a leading separator the pattern does not start
with. -/
theorem delPat_cons_sep (p : Char) (pt b : Chars) (hp : p ≠ '\n') :
    delPat (p :: pt) ('\n' :: b) = '\n' :: delPat (p :: pt) b := by
  have hpre : List.isPrefixOf (p :: pt) ('\n' :: b) = false := by
    simp only [List.isPrefixOf, Bool.and_eq_false_iff]
    left
    simpa using hp
  exact delPat_neg _ _ _ hpre

/-- `dropWhile` stops at a character failing the predicate. -/
theorem dropWhile_cons_false (p : Char → Bool) (c : Char) (l : Chars) (h : p c = false) :
    List.dropWhile p (c :: l) = c :: l := by
  simp [List.dropWhile_cons, h]

/-- Left strip is the identity on text starting with the long fence. -/
theorem pyStripL_append_f7 (Z : Chars) : pyStripL (fence7 ++ Z) = fence7 ++ Z := by
  unfold pyStripL
  have hh : fence7 = fence7.head! :: fence7.tail := by decide
  rw [hh, List.cons_append, dropWhile_cons_false _ _ _ (by decide), ← List.cons_append, ← hh]

/-- Right strip is the identity on text ending with the short fence. -/
theorem pyStripR_append_f3 (Z : Chars) : pyStripR (Z ++ fence3) = Z ++ fence3 := by
  unfold pyStripR
  rw [List.reverse_append]
  have h3 : fence3.reverse = fence3 := by decide
  rw [h3]
  have hh : fence3 = fence3.head! :: fence3.tail := by decide
  rw [hh, List.cons_append, dropWhile_cons_false _ _ _ (by decide), ← List.cons_append, ← hh,
    List.reverse_append, List.reverse_reverse, h3]

/-- Stripping does not change a fenced-wrapped response. -/
theorem pyStrip_wrap (sd : Chars) :
    pyStrip (fence7 ++ '\n' :: (sd ++ '\n' :: fence3)) =
      fence7 ++ '\n' :: (sd ++ '\n' :: fence3) := by
  have hW : fence7 ++ '\n' :: (sd ++ '\n' :: fence3) =
      (fence7 ++ ('\n' :: sd ++ ['\n'])) ++ fence3 := by simp
  unfold pyStrip
  rw [pyStripL_append_f7, hW, pyStripR_append_f3]

/-- Effect of the cleaning pass on a fenced-wrapped response whose
payload is already stripped: the fences are deleted (leaving the two
newlines), and the payload is cleaned exactly as the bare payload would
be. -/
theorem clean_json_wrap (sd : Chars) (h : pyStrip sd = sd) :
    clean_json (fence7 ++ '\n' :: (sd ++ '\n' :: fence3)) =
      '\n' :: (clean_json sd ++ ['\n']) := by
  have hh7 : fence7 = fence7.head! :: fence7.tail := by decide
  have hh3 : fence3 = fence3.head! :: fence3.tail := by decide
  have hp7 : fence7.head! ≠ '\n' := by decide
  have hp3 : fence3.head! ≠ '\n' := by decide
  have hne7 : fence7 ≠ [] := by decide
  have hne3 : fence3 ≠ [] := by decide
  have hs7 : '\n' ∉ fence7 := by decide
  have hs3 : '\n' ∉ fence3 := by decide
  unfold clean_json
  rw [pyStrip_wrap, h]
  have step1 : delPat fence7 (fence7 ++ '\n' :: (sd ++ '\n' :: fence3)) =
      delPat fence7 ('\n' :: (sd ++ '\n' :: fence3)) := by
    rw [hh7]; exact delPat_self_front _ _ _
  have step2 : delPat fence7 ('\n' :: (sd ++ '\n' :: fence3)) =
      '\n' :: delPat fence7 (sd ++ '\n' :: fence3) := by
    rw [hh7]; exact delPat_cons_sep _ _ _ hp7
  have step3 : delPat fence7 (sd ++ '\n' :: fence3) =
      delPat fence7 sd ++ '\n' :: delPat fence7 fence3 :=
    delPat_append_sep fence7 hne7 hs7 sd.length sd fence3 (le_refl _)
  have step4 : delPat fence7 fence3 = fence3 := by decide
  rw [step1, step2, step3, step4]
  have step5 : delPat fence3 ('\n' :: (delPat fence7 sd ++ '\n' :: fence3)) =
      '\n' :: delPat fence3 (delPat fence7 sd ++ '\n' :: fence3) := by
    rw [hh3]; exact delPat_cons_sep _ _ _ hp3
  have step6 : delPat fence3 (delPat fence7 sd ++ '\n' :: fence3) =
      delPat fence3 (delPat fence7 sd) ++ '\n' :: delPat fence3 fence3 :=
    delPat_append_sep fence3 hne3 hs3 _ _ fence3 (le_refl _)
  have step7 : delPat fence3 fence3 = [] := by decide
  rw [step5, step6, step7]

/-- `dropWhile` consumes a character satisfying the predicate. -/
theorem dropWhile_cons_true (p : Char → Bool) (c : Char) (l : Chars) (h : p c = true) :
    List.dropWhile p (c :: l) = List.dropWhile p l := by
  simp [List.dropWhile_cons, h]

/-- The whitespace trim ignores a leading and a trailing newline. -/
theorem jtrimL_wrap (u : Chars) : jtrimL ('\n' :: (u ++ ['\n'])) = jtrimL u := by
  unfold jtrimL
  rw [dropWhile_cons_true _ _ _ (by decide)]
  cases hd : List.dropWhile jsonWs u with
  | nil =>
    rw [List.dropWhile_append, hd]
    have hnl : List.dropWhile jsonWs ['\n'] = ([] : Chars) := by decide
    simp [hnl]
  | cons c t =>
    rw [List.dropWhile_append, hd]
    simp only [List.isEmpty_cons, Bool.false_eq_true, if_false]
    rw [List.reverse_append]
    have : List.reverse ['\n'] = ['\n'] := rfl
    rw [this, List.singleton_append, dropWhile_cons_true _ _ _ (by decide)]

/-- Success of `loadsL` is success of the trimmed-document parse. -/
theorem loadsL_ok_iff (x : Chars) (v : Json) :
    loadsL x = .ok v ↔ parseDoc (jtrimL x) = .ok v := by
  unfold loadsL
  cases hp : parseDoc (jtrimL x) <;> simp

/-- Documents with the same whitespace trim succeed identically. -/
theorem loadsL_ok_congr (x y : Chars) (h : jtrimL x = jtrimL y) (v : Json)
    (hx : loadsL x = .ok v) : loadsL y = .ok v := by
  rw [loadsL_ok_iff] at hx ⊢
  rw [← h]
  exact hx

/-- Success of `parse_model_output` is success of `json.loads` on the
cleaned response, returning the parsed value verbatim together with the
raw response. -/
theorem parse_model_output_ok_iff (raw : String) (v : Json) :
    (parse_model_output raw).1 = some v ↔ loadsL (clean_json raw.data) = .ok v := by
  unfold parse_model_output
  cases hp : loadsL (clean_json raw.data) <;> simp

/-- Character data of the canonical fenced wrapping. -/
theorem wrapFence_data (s : String) :
    (wrapFence s).data = fence7 ++ '\n' :: (s.data ++ '\n' :: fence3) := by
  show (("```json\n" ++ s) ++ "\n```").data = _
  rw [String.data_append, String.data_append]
  have h1 : ("```json\n").data = fence7 ++ ['\n'] := by decide
  have h2 : ("\n```").data = '\n' :: fence3 := by decide
  rw [h1, h2]
  simp

/-- Folding addition of amounts computes the sum of the mapped amounts. -/
theorem foldl_add_amount (l : List Row) :
    ∀ c : ℚ, l.foldl (fun acc r => acc + r.amount) c = c + (l.map Row.amount).sum := by
  induction l with
  | nil => intro c; simp
  | cons r t ih =>
    intro c
    simp only [List.foldl_cons, List.map_cons, List.sum_cons, ih]
    ring

/-- Folding guarded addition computes the sum over the filtered rows. -/
theorem foldl_add_shared (l : List Row) :
    ∀ c : ℚ, l.foldl (fun acc r => if r.type = sharedTag then acc + r.amount else acc) c =
      c + ((l.filter fun r => r.type = sharedTag).map Row.amount).sum := by
  induction l with
  | nil => intro c; simp
  | cons r t ih =>
    intro c
    by_cases h : r.type = sharedTag
    · simp [List.filter_cons, h, ih]
      ring
    · simp [List.filter_cons, h, ih]

/-- A string contains itself followed by anything. -/
theorem containsSub_self_append (n : Chars) : ∀ y, containsSub n (n ++ y) = true := by
  intro y
  cases n with
  | nil =>
    cases y with
    | nil => rfl
    | cons c cs => simp [containsSub, List.isPrefixOf]
  | cons a as =>
    have h := isPrefixOf_self_append (a :: as) y
    rw [List.cons_append] at h ⊢
    simp [containsSub, h]

/-- Containment is preserved by prepending text. -/
theorem containsSub_append_left (n : Chars) : ∀ z h, containsSub n h = true →
    containsSub n (z ++ h) = true := by
  intro z
  induction z with
  | nil => intro h hh; simpa using hh
  | cons c z' ih =>
    intro h hh
    rw [List.cons_append]
    simp [containsSub, ih h hh]

/-! ### Claim theorems -/

/-- C1: for every record collection and every split, the settlement
calculation computes `totalSpend` as the sum of all record amounts,
`sharedSpend` as the sum over records with kind `Shared`, `privateSpend`
as their difference, `partyAOwed = splitRatio × sharedSpend` and
`partyBOwed = sharedSpend − partyAOwed`, where the code realises
`splitRatio` as `split / 100`. -/
theorem c1_settlement_matches_spec (df : List Row) (split : ℕ) :
    total_spend df = totalSpend df ∧
    shared_spend df = sharedSpend df ∧
    private_spend df = totalSpend df - sharedSpend df ∧
    you_pay split df = partyAOwed ((split : ℚ) / 100) df ∧
    partner_pay split df = sharedSpend df - partyAOwed ((split : ℚ) / 100) df := by
  have h1 : totalSpend df = (df.map Row.amount).sum := by
    rw [totalSpend, foldl_add_amount df 0, zero_add]
  have h2 : sharedSpend df = ((df.filter fun r => r.type = sharedTag).map Row.amount).sum := by
    rw [sharedSpend, foldl_add_shared df 0, zero_add]
  have ht : total_spend df = totalSpend df := by rw [h1]; rfl
  have hs : shared_spend df = sharedSpend df := by rw [h2]; rfl
  refine ⟨ht, hs, ?_, ?_, ?_⟩
  · rw [private_spend, ht, hs]
  · rw [you_pay, partyAOwed, hs]
  · rw [partner_pay, you_pay, partyAOwed, hs]

/-- C8: shared plus private spend equals total spend (exactly, hence
within any tolerance), and for any split ratio in `[0, 1]` the two owed
amounts sum to the shared spend — both for the spec-level ratio form and
for the code-level `you_pay`/`partner_pay` with an integer percentage. -/
theorem c8_aggregate_conservation (df : List Row) (ratioQ : ℚ) (split : ℕ)
    (_h0 : 0 ≤ ratioQ) (_h1 : ratioQ ≤ 1) :
    shared_spend df + private_spend df = total_spend df ∧
    partyAOwed ratioQ df + partyBOwed ratioQ df = sharedSpend df ∧
    you_pay split df + partner_pay split df = shared_spend df := by
  refine ⟨?_, ?_, ?_⟩
  · unfold private_spend; ring
  · unfold partyBOwed; ring
  · unfold partner_pay; ring

/-- Witness for C8 at records `[(100, Shared), (50, Private)]`, ratio
`1/2`, split `30`. -/
theorem c8_aggregate_conservation_witness :
    (0 : ℚ) ≤ 1 / 2 ∧ (1 / 2 : ℚ) ≤ 1 ∧
    (shared_spend [⟨100, sharedTag⟩, ⟨50, "Private".data⟩] +
        private_spend [⟨100, sharedTag⟩, ⟨50, "Private".data⟩] =
        total_spend [⟨100, sharedTag⟩, ⟨50, "Private".data⟩] ∧
      partyAOwed (1 / 2) [⟨100, sharedTag⟩, ⟨50, "Private".data⟩] +
          partyBOwed (1 / 2) [⟨100, sharedTag⟩, ⟨50, "Private".data⟩] =
          sharedSpend [⟨100, sharedTag⟩, ⟨50, "Private".data⟩] ∧
      you_pay 30 [⟨100, sharedTag⟩, ⟨50, "Private".data⟩] +
          partner_pay 30 [⟨100, sharedTag⟩, ⟨50, "Private".data⟩] =
          shared_spend [⟨100, sharedTag⟩, ⟨50, "Private".data⟩]) :=
  ⟨by norm_num, by norm_num,
    c8_aggregate_conservation [⟨100, sharedTag⟩, ⟨50, "Private".data⟩] (1 / 2) 30
      (by norm_num) (by norm_num)⟩

/-- C7: when the extracted text is shorter than 50 characters (including
the empty text), the processing block reports the empty-document error
and the model call boundary (`analyze_with_ai`, hence `generate`) is not
invoked. -/
theorem c7_short_document_stops_early (raw_text modelResponse api_key : String)
    (h : raw_text.length < 50) :
    process_upload raw_text modelResponse api_key = (.emptyDocError, false) := by
  rw [process_upload, if_pos h]

/-- Witness for C7 at the empty document. -/
theorem c7_short_document_stops_early_witness :
    ("" : String).length < 50 ∧
    process_upload ("") ("response") ("key") = (.emptyDocError, false) :=
  ⟨by decide, c7_short_document_stops_early ("") ("response") ("key") (by decide)⟩

/-- C6: a model response whose cleaned text parses to an empty array is
passed through as an empty extraction, and the empty batch is treated as
a failure downstream: the `if data:` guard is falsy, so no dashboard or
settlement computation runs over it. -/
theorem c6_empty_extraction_is_failure (raw : String)
    (h : loadsL (clean_json raw.data) = .ok (Json.arr [])) :
    parse_model_output raw = (some (Json.arr []), raw) ∧
    dashboard_taken (parse_model_output raw).1 = false := by
  have h1 : parse_model_output raw = (some (Json.arr []), raw) := by
    rw [parse_model_output, h]
  exact ⟨h1, by rw [h1]; rfl⟩

/-- Witness for C6 at the response `"[]"`. -/
theorem c6_empty_extraction_is_failure_witness :
    loadsL (clean_json ("[]" : String).data) = .ok (Json.arr []) ∧
    parse_model_output ("[]") = (some (Json.arr []), "[]") ∧
    dashboard_taken (parse_model_output ("[]")).1 = false :=
  ⟨rfl, (c6_empty_extraction_is_failure ("[]") rfl).1,
    (c6_empty_extraction_is_failure ("[]") rfl).2⟩

/-- C2 counterexample: the model response
`[{"description": "Rent", "amount": "oops"}]` has one record with no
`kind`/`type` field and an amount that is not a number, yet the parser
returns it verbatim: the record is neither coerced to `Private` (no
`type` key is present in the result) nor rejected (the batch still has
one record), refuting the claimed per-record coercion and skipping. -/
theorem c2_per_record_coercion_counterexample :
    parse_model_output
        ("[" ++ lbr ++ "\"description\": \"Rent\", \"amount\": \"oops\"" ++ rbr ++ "]") =
      (some (Json.arr [Json.obj [("description".data, Json.str ("Rent".data)),
        ("amount".data, Json.str ("oops".data))]]),
       "[" ++ lbr ++ "\"description\": \"Rent\", \"amount\": \"oops\"" ++ rbr ++ "]") ∧
    lookupKey ("type".data)
        [("description".data, Json.str ("Rent".data)),
         ("amount".data, Json.str ("oops".data))] = none ∧
    [Json.obj [("description".data, Json.str ("Rent".data)),
      ("amount".data, Json.str ("oops".data))]] ≠ ([] : List Json) := by
  refine ⟨rfl, rfl, ?_⟩
  intro h
  cases h

/-- C2 amended: the parser performs no per-record repair at all — on
structural success it returns every parsed record verbatim, whether or
not `kind` is missing and whether or not the amount is a number; nothing
is coerced, flagged, or skipped. -/
theorem c2_records_returned_verbatim (raw : String) (v : Json)
    (h : loadsL (clean_json raw.data) = .ok v) :
    parse_model_output raw = (some v, raw) := by
  rw [parse_model_output, h]

/-- Witness for the amended C2 at the response `"[1, 2]"`. -/
theorem c2_records_returned_verbatim_witness :
    loadsL (clean_json ("[1, 2]" : String).data) = .ok (Json.arr [Json.num 1, Json.num 2]) ∧
    parse_model_output ("[1, 2]") = (some (Json.arr [Json.num 1, Json.num 2]), "[1, 2]") :=
  ⟨by with_unfolding_all rfl,
    c2_records_returned_verbatim ("[1, 2]") (Json.arr [Json.num 1, Json.num 2])
      (by with_unfolding_all rfl)⟩

/-- C3 counterexample: on the unparsable response
`"Sorry I could not parse the statement."` the failure value carries only
the decode-exception text `str(e)`; the raw model response is not equal
to it and does not occur inside it, so the raw text is not preserved
anywhere in the returned result (and the debug view, which shows this
second component, cannot retrieve it). -/
theorem c3_raw_text_lost_counterexample :
    parse_model_output ("Sorry I could not parse the statement.") =
      (none, "Expecting value: line 1 column 1 (char 0)") ∧
    "Expecting value: line 1 column 1 (char 0)" ≠
      "Sorry I could not parse the statement." ∧
    containsSub ("Sorry I could not parse the statement.").data
      ("Expecting value: line 1 column 1 (char 0)").data = false :=
  ⟨rfl, by decide, by decide⟩

/-- C3 amended: on structural parse failure the parser returns a failure
whose diagnostic component is the exception text of the decode error
(`str(e)`), not the raw model response; the raw response is dropped on
this path. -/
theorem c3_failure_carries_error_text (raw msg : String)
    (h : loadsL (clean_json raw.data) = .error msg) :
    parse_model_output raw = (none, msg) := by
  rw [parse_model_output, h]

/-- Witness for the amended C3 at the response `"hello"`. -/
theorem c3_failure_carries_error_text_witness :
    loadsL (clean_json ("hello" : String).data) =
      .error "Expecting value: line 1 column 1 (char 0)" ∧
    parse_model_output ("hello") = (none, "Expecting value: line 1 column 1 (char 0)") :=
  ⟨rfl, c3_failure_carries_error_text ("hello") ("Expecting value: line 1 column 1 (char 0)") rfl⟩

/-- C4 counterexample: `"42"` is a syntactically valid json value that is
not an array, yet the parser returns it as a success, not as a
`MalformedOutput` failure. -/
theorem c4_nonarray_success_counterexample :
    parse_model_output ("42") = (some (Json.num 42), "42") ∧
    (parse_model_output ("42")).1 ≠ none := by
  have h1 : parse_model_output ("42") = (some (Json.num 42), "42") := by
    with_unfolding_all rfl
  refine ⟨h1, ?_⟩
  rw [h1]
  intro h
  cases h

/-- C4 amended: the parser is total — every response yields a typed
result, never an unhandled fault — and it fails exactly when `json.loads`
on the cleaned text raises: any valid json value, array or not, is
returned as a success. -/
theorem c4_total_typed_result (s : String) :
    (∃ v, loadsL (clean_json s.data) = .ok v ∧ parse_model_output s = (some v, s)) ∨
    (∃ m, loadsL (clean_json s.data) = .error m ∧ parse_model_output s = (none, m)) := by
  cases h : loadsL (clean_json s.data) with
  | ok v => exact Or.inl ⟨v, rfl, by rw [parse_model_output, h]⟩
  | error m => exact Or.inr ⟨m, rfl, by rw [parse_model_output, h]⟩

/-- C5: a structurally valid (stripped) payload wrapped in the canonical
fenced code block parses successfully and yields exactly the same value
as the parser yields on the bare payload, because the cleaning pass
removes the fence markers and `json.loads` ignores the remaining
surrounding whitespace. -/
theorem c5_fenced_wrap_preserves_parse (s : String) (v : Json)
    (hstrip : pyStrip s.data = s.data)
    (hok : (parse_model_output s).1 = some v) :
    parse_model_output (wrapFence s) = (some v, wrapFence s) := by
  have h1 : loadsL (clean_json s.data) = .ok v := (parse_model_output_ok_iff s v).mp hok
  have h2 : clean_json (wrapFence s).data = '\n' :: (clean_json s.data ++ ['\n']) := by
    rw [wrapFence_data]
    exact clean_json_wrap s.data hstrip
  have h3 : loadsL (clean_json (wrapFence s).data) = .ok v := by
    rw [h2]
    exact loadsL_ok_congr (clean_json s.data) ('\n' :: (clean_json s.data ++ ['\n']))
      (jtrimL_wrap (clean_json s.data)).symm v h1
  rw [parse_model_output, h3]

/-- Witness for C5 at the payload `[{"amount": 1.5, "type": "Shared"}]`. -/
theorem c5_fenced_wrap_preserves_parse_witness :
    pyStrip ("[" ++ lbr ++ "\"amount\": 1.5, \"type\": \"Shared\"" ++ rbr ++ "]" : String).data =
      ("[" ++ lbr ++ "\"amount\": 1.5, \"type\": \"Shared\"" ++ rbr ++ "]" : String).data ∧
    (parse_model_output ("[" ++ lbr ++ "\"amount\": 1.5, \"type\": \"Shared\"" ++ rbr ++ "]")).1 =
      some (Json.arr [Json.obj [("amount".data, Json.num (3 / 2)),
        ("type".data, Json.str ("Shared".data))]]) ∧
    parse_model_output (wrapFence ("[" ++ lbr ++ "\"amount\": 1.5, \"type\": \"Shared\"" ++ rbr ++ "]")) =
      (some (Json.arr [Json.obj [("amount".data, Json.num (3 / 2)),
        ("type".data, Json.str ("Shared".data))]]),
       wrapFence ("[" ++ lbr ++ "\"amount\": 1.5, \"type\": \"Shared\"" ++ rbr ++ "]")) :=
  ⟨by decide, by with_unfolding_all rfl,
    c5_fenced_wrap_preserves_parse
      ("[" ++ lbr ++ "\"amount\": 1.5, \"type\": \"Shared\"" ++ rbr ++ "]")
      (Json.arr [Json.obj [("amount".data, Json.num (3 / 2)),
        ("type".data, Json.str ("Shared".data))]])
      (by decide) (by with_unfolding_all rfl)⟩

/-- C9 counterexample: with records `[(100, Shared), (50, Private)]` and
split `30`, the outbound report is
`"Hey! FinSync Report: Total Shared is $100.00. Based on a 30/70 split,
please send $70.00."`; it contains neither the total spend (`150.00`)
nor the owed amount of the first party (`you_pay = 30`, formatted `30.00`),
refuting the claim that the report contains the total spend and the
owed amounts of both parties. -/
theorem c9_report_counterexample :
    settlement_msg [⟨100, sharedTag⟩, ⟨50, "Private".data⟩] 30 =
      "Hey! FinSync Report: Total Shared is $100.00. Based on a 30/70 split, please send $70.00." ∧
    total_spend [⟨100, sharedTag⟩, ⟨50, "Private".data⟩] = 150 ∧
    fmt2 150 = "150.00" ∧
    containsSub ("150.00" : String).data
      ("Hey! FinSync Report: Total Shared is $100.00. Based on a 30/70 split, please send $70.00." : String).data = false ∧
    you_pay 30 [⟨100, sharedTag⟩, ⟨50, "Private".data⟩] = 30 ∧
    fmt2 30 = "30.00" ∧
    containsSub ("30.00" : String).data
      ("Hey! FinSync Report: Total Shared is $100.00. Based on a 30/70 split, please send $70.00." : String).data = false :=
  ⟨by with_unfolding_all rfl, by with_unfolding_all rfl, by with_unfolding_all rfl,
    by decide, by with_unfolding_all rfl, by with_unfolding_all rfl, by decide⟩

/-- C9 amended: the outbound report always contains the shared-pot
amount and the owed amount of the partner (and the split percentages),
but not, in general, the total spend or the owed amount of the sender. -/
theorem c9_report_contains_shared_and_partner (df : List Row) (split : ℕ) :
    containsSub (fmt2 (shared_spend df)).data (settlement_msg df split).data = true ∧
    containsSub (fmt2 (partner_pay split df)).data (settlement_msg df split).data = true := by
  constructor
  · rw [settlement_msg]
    simp only [String.data_append, List.append_assoc]
    exact containsSub_append_left _ _ _ (containsSub_self_append _ _)
  · rw [settlement_msg]
    simp only [String.data_append, List.append_assoc]
    refine containsSub_append_left _ _ _ ?_
    refine containsSub_append_left _ _ _ ?_
    refine containsSub_append_left _ _ _ ?_
    refine containsSub_append_left _ _ _ ?_
    refine containsSub_append_left _ _ _ ?_
    refine containsSub_append_left _ _ _ ?_
    refine containsSub_append_left _ _ _ ?_
    exact containsSub_self_append _ _

/-- C10: the cleanup is a global substring deletion, not only a removal
of leading/trailing wrapping: in the valid array
`[{"description": "pay ``` now", "amount": 4}]` the fence inside the
string field value is deleted, so the parsed record differs from the
payload the model actually emitted. -/
theorem c10_global_fence_deletion :
    loads ("[" ++ lbr ++ "\"description\": \"pay ``` now\", \"amount\": 4" ++ rbr ++ "]") =
      .ok (Json.arr [Json.obj [("description".data, Json.str ("pay ``` now" : String).data),
        ("amount".data, Json.num 4)]]) ∧
    clean_json ("[" ++ lbr ++ "\"description\": \"pay ``` now\", \"amount\": 4" ++ rbr ++ "]" : String).data =
      ("[" ++ lbr ++ "\"description\": \"pay  now\", \"amount\": 4" ++ rbr ++ "]" : String).data ∧
    parse_model_output ("[" ++ lbr ++ "\"description\": \"pay ``` now\", \"amount\": 4" ++ rbr ++ "]") =
      (some (Json.arr [Json.obj [("description".data, Json.str ("pay  now" : String).data),
        ("amount".data, Json.num 4)]]),
       "[" ++ lbr ++ "\"description\": \"pay ``` now\", \"amount\": 4" ++ rbr ++ "]") ∧
    Json.arr [Json.obj [("description".data, Json.str ("pay  now" : String).data),
        ("amount".data, Json.num 4)]] ≠
      Json.arr [Json.obj [("description".data, Json.str ("pay ``` now" : String).data),
        ("amount".data, Json.num 4)]] := by
  refine ⟨by with_unfolding_all rfl, by decide, by with_unfolding_all rfl, ?_⟩
  intro h
  have hd := congrArg descOf h
  have hne : descOf (Json.arr [Json.obj [("description".data, Json.str ("pay  now" : String).data),
      ("amount".data, Json.num 4)]]) ≠
      descOf (Json.arr [Json.obj [("description".data, Json.str ("pay ``` now" : String).data),
      ("amount".data, Json.num 4)]]) := by decide
  exact hne hd
